import Mathlib

/-!
Shallow embedding of the rsjail repository (src/config.rs, src/jail.rs).

Modelling conventions:
* Rust `u32`/`u64` values become `Nat` (no arithmetic is performed on them,
  so overflow is irrelevant).
* Every syscall / fallible library call is recorded as an `Event` in a trace;
  whether the call succeeds is decided by an oracle `Sys.ok : Event → Bool`
  standing for the kernel / OS.  An `OpenOptions::open` followed by
  `write_all` is collapsed into a single `Event.writeE` (failure of either is
  failure of the write).
* Filesystem existence queries (`Path::exists`, `Path::is_file`) are answered
  by oracles `Sys.exists0` / `Sys.isFile0` describing the initial filesystem,
  extended by the paths the run itself creates (threaded in `FsSt`).
* `getuid` / `getgid` / `getpid` are the oracles `Sys.uid` / `Sys.gid` /
  `Sys.pid`; the pid returned by `fork` to the parent is `Sys.childPid`; the
  wait status of a successfully exec'd program is `Sys.extStatus`.
* Each Rust function returns `Result<()>`; here each returns
  `FsSt × List Event × Option Err`: the new filesystem knowledge, the events
  it performed (attempted calls included), and `none` on success or the error
  that made `?` propagate.  `execve` success means the process image is
  replaced, so nothing can follow it — in the model it is the last action of
  the child pipeline and its `none` result marks replacement.
-/

namespace Rsjail

/-- Mirrors `MountConfig` in src/config.rs. -/
structure MountConfig where
  src : String
  dst : String
  fstype : Option String
  is_bind : Bool
  rw : Bool
deriving DecidableEq, Repr

/-- Mirrors `JailConfig` in src/config.rs. -/
structure JailConfig where
  name : String
  hostname : Option String
  chroot_dir : Option String
  exec_bin : String
  exec_args : List String
  clone_newpid : Bool
  clone_newnet : Bool
  clone_newns : Bool
  clone_newuts : Bool
  clone_newipc : Bool
  clone_newuser : Bool
  rlimit_as : Option Nat
  rlimit_cpu : Option Nat
  rlimit_nofile : Option Nat
  mounts : List MountConfig
  uid : Option Nat
  gid : Option Nat
  time_limit : Option Nat
deriving DecidableEq, Repr

/-- Mirrors `JailConfig::default()` in src/config.rs. -/
def JailConfig.default : JailConfig where
  name := "default"
  hostname := none
  chroot_dir := none
  exec_bin := "/bin/sh"
  exec_args := ["/bin/sh"]
  clone_newpid := true
  clone_newnet := true
  clone_newns := true
  clone_newuts := true
  clone_newipc := true
  clone_newuser := true
  rlimit_as := none
  rlimit_cpu := none
  rlimit_nofile := none
  mounts := []
  uid := none
  gid := none
  time_limit := none

/-- The namespace kinds of `nix::sched::CloneFlags` used in src/jail.rs. -/
inductive NsKind
  | pidNs | netNs | mntNs | utsNs | ipcNs | userNs
deriving DecidableEq, Repr

/-- The resources of `nix::sys::resource::Resource` used in src/jail.rs. -/
inductive Rlim
  | asLim | cpuLim | nofileLim
deriving DecidableEq, Repr

/-- One attempted syscall / fallible OS operation of src/jail.rs. -/
inductive Event
  | unshareE (flags : List NsKind)
  | forkE
  | writeE (path content : String)
  | sethostnameE (h : String)
  | mkdirE (p : String)
  | fileCreateE (p : String)
  | mountE (src target : String) (fstype : Option String) (bind rdonly : Bool)
  | chrootE (dir : String)
  | chdirE (dir : String)
  | setgidE (g : Nat)
  | setuidE (u : Nat)
  | setrlimitE (r : Rlim) (soft hard : Nat)
  | execveE (prog : String) (args env : List String)
  | waitpidE (child : Nat)
deriving DecidableEq, Repr

/-- An error that makes a `?` in src/jail.rs propagate: a failed OS call, or
a `CString::new` failing on an interior NUL byte. -/
inductive Err
  | sysE (e : Event)
  | nulE (s : String)
deriving DecidableEq, Repr

/-- Wait status as in `nix::sys::wait::WaitStatus` (the cases src/jail.rs
matches on). -/
inductive WaitSt
  | exitedW (code : Int)
  | signaledW (sig : Nat)
  | otherW
deriving DecidableEq, Repr

/-- What `wait_for_child` prints for the child's status. -/
inductive Report
  | exitReport (pid : Nat) (code : Int)
  | sigReport (pid : Nat) (sig : Nat)
  | otherReport
deriving DecidableEq, Repr

/-- The OS / kernel oracle: which calls succeed, what the initial filesystem
contains, and the identity values the kernel reports. -/
structure Sys where
  ok : Event → Bool
  exists0 : String → Bool
  isFile0 : String → Bool
  uid : Nat
  gid : Nat
  pid : Nat
  childPid : Nat
  extStatus : WaitSt

/-- Filesystem knowledge accumulated during a run: paths this run created,
and which of them are regular files. -/
structure FsSt where
  created : List String
  createdFiles : List String
deriving DecidableEq, Repr

/-- The empty initial filesystem knowledge. -/
def initFs : FsSt := ⟨[], []⟩

/-- Result of one modelled Rust function: new filesystem knowledge, events
performed, and `none` on success. -/
abbrev StepRes := FsSt × List Event × Option Err

/-- Sequencing of two fallible steps: exactly Rust's `?` propagation. -/
def seqStep (a : StepRes) (k : FsSt → StepRes) : StepRes :=
  match a with
  | (fs, tr, none) =>
      let r := k fs
      (r.1, tr ++ r.2.1, r.2.2)
  | (fs, tr, some e) => (fs, tr, some e)

/-- Attempt a plain syscall: the event is recorded, the oracle decides
success. -/
def sysStep (sys : Sys) (fs : FsSt) (e : Event) : StepRes :=
  (fs, [e], if sys.ok e then none else some (Err.sysE e))

/-- `Path::exists`: true if the path existed initially or was created by this
run. -/
def pathExists (sys : Sys) (fs : FsSt) (p : String) : Bool :=
  sys.exists0 p || fs.created.contains p

/-- `Path::is_file`: true if the path is a regular file. -/
def pathIsFile (sys : Sys) (fs : FsSt) (p : String) : Bool :=
  sys.isFile0 p || fs.createdFiles.contains p

/-- `fs::create_dir_all`: attempt to create the directory, recording it as
created on success. -/
def create_dir_all (sys : Sys) (fs : FsSt) (p : String) : StepRes :=
  if sys.ok (Event.mkdirE p) then
    ({ fs with created := fs.created ++ [p] }, [Event.mkdirE p], none)
  else
    (fs, [Event.mkdirE p], some (Err.sysE (Event.mkdirE p)))

/-- `fs::File::create`: attempt to create an empty regular file. -/
def file_create (sys : Sys) (fs : FsSt) (p : String) : StepRes :=
  if sys.ok (Event.fileCreateE p) then
    ({ created := fs.created ++ [p], createdFiles := fs.createdFiles ++ [p] },
     [Event.fileCreateE p], none)
  else
    (fs, [Event.fileCreateE p], some (Err.sysE (Event.fileCreateE p)))

/-- Split a character list on `/` (the semantics of splitting a path string
on the separator, done at character level). -/
def splitSlash : List Char → List (List Char)
  | [] => [[]]
  | c :: cs =>
      let r := splitSlash cs
      if c = '/' then [] :: r
      else
        match r with
        | [] => [[c]]
        | h :: t => (c :: h) :: t

/-- The `/`-separated components of a path string. -/
def pathComponents (p : String) : List String :=
  (splitSlash p.data).map List.asString

/-- Lexical model of `Path::parent`: drop the last path component.  Returns
`none` for the root and the empty path, `some` otherwise. -/
def parentPath (p : String) : Option String :=
  if p = "/" || p = "" then none
  else
    let comps := (splitSlash p.data).dropLast
    if comps = [] then none
    else if comps = [[]] then some "/"
    else some (List.asString (List.intercalate ['/'] comps))

/-- Mirrors the `CloneFlags` accumulation in `Jail::create_namespaces`
(src/jail.rs lines 48-69), preserving the source's flag order. -/
def cloneFlags (cfg : JailConfig) : List NsKind :=
  (if cfg.clone_newpid then [NsKind.pidNs] else []) ++
  (if cfg.clone_newnet then [NsKind.netNs] else []) ++
  (if cfg.clone_newns then [NsKind.mntNs] else []) ++
  (if cfg.clone_newuts then [NsKind.utsNs] else []) ++
  (if cfg.clone_newipc then [NsKind.ipcNs] else []) ++
  (if cfg.clone_newuser then [NsKind.userNs] else [])

/-- Mirrors `Jail::create_namespaces`: build the flag set and call
`unshare(flags)`. -/
def create_namespaces (sys : Sys) (cfg : JailConfig) : List Event × Option Err :=
  let e := Event.unshareE (cloneFlags cfg)
  ([e], if sys.ok e then none else some (Err.sysE e))

/-- Mirrors `Jail::setup_uid_gid_mapping` (src/jail.rs lines 102-123): write
the UID map, then deny setgroups, then write the GID map, each to the
`/proc/<pid>/...` pseudo-file. -/
def setup_uid_gid_mapping (sys : Sys) (fs : FsSt) : StepRes :=
  let pidStr := toString sys.pid
  let uidMapEvt := Event.writeE ("/proc/" ++ pidStr ++ "/uid_map")
      ("0 " ++ toString sys.uid ++ " 1")
  let setgroupsEvt := Event.writeE ("/proc/" ++ pidStr ++ "/setgroups") "deny"
  let gidMapEvt := Event.writeE ("/proc/" ++ pidStr ++ "/gid_map")
      ("0 " ++ toString sys.gid ++ " 1")
  seqStep (sysStep sys fs uidMapEvt) (fun fs1 =>
  seqStep (sysStep sys fs1 setgroupsEvt) (fun fs2 =>
  sysStep sys fs2 gidMapEvt))

/-- The fixed directory skeleton of `Jail::create_jail_directories`
(src/jail.rs line 149). -/
def jailDirs : List String :=
  ["bin", "lib", "lib64", "usr", "etc", "tmp", "proc", "dev", "sys"]

/-- The per-entry loop body of `Jail::create_jail_directories`: create each
missing skeleton directory under the chroot dir. -/
def skeletonLoop (sys : Sys) (fs : FsSt) (chroot_dir : String) :
    List String → StepRes
  | [] => (fs, [], none)
  | d :: ds =>
      let p := chroot_dir ++ "/" ++ d
      seqStep (if pathExists sys fs p then (fs, [], none)
               else create_dir_all sys fs p)
        (fun fs1 => skeletonLoop sys fs1 chroot_dir ds)

/-- Mirrors `Jail::create_jail_directories` (src/jail.rs lines 141-158):
create the chroot dir if missing, then each skeleton directory. -/
def create_jail_directories (sys : Sys) (fs : FsSt) (chroot_dir : String) :
    StepRes :=
  seqStep (if pathExists sys fs chroot_dir then (fs, [], none)
           else create_dir_all sys fs chroot_dir)
    (fun fs1 => skeletonLoop sys fs1 chroot_dir jailDirs)

/-- The mount target computed by `Jail::setup_mount` (src/jail.rs line 161):
plain string concatenation `format!("{}{}", chroot_dir, mount_config.dst)`. -/
def mountTarget (chroot_dir dst : String) : String :=
  chroot_dir ++ dst

/-- Mirrors `Jail::setup_mount` (src/jail.rs lines 160-192): ensure the
target's parent exists, materialise the target (file or directory), then
call `mount` with `MS_BIND` iff `is_bind` and `MS_RDONLY` iff not `rw`. -/
def setup_mount (sys : Sys) (fs : FsSt) (chroot_dir : String)
    (mc : MountConfig) : StepRes :=
  let target := mountTarget chroot_dir mc.dst
  seqStep (match parentPath target with
           | some par => create_dir_all sys fs par
           | none => (fs, [], none))
    (fun fs1 =>
  seqStep (if pathIsFile sys fs1 mc.src then file_create sys fs1 target
           else if pathExists sys fs1 target then (fs1, [], none)
           else create_dir_all sys fs1 target)
    (fun fs2 =>
  sysStep sys fs2 (Event.mountE mc.src target mc.fstype mc.is_bind (!mc.rw))))

/-- The `for mount_config in &self.config.mounts` loop of
`Jail::setup_filesystem`. -/
def mountsLoop (sys : Sys) (fs : FsSt) (chroot_dir : String) :
    List MountConfig → StepRes
  | [] => (fs, [], none)
  | mc :: mcs =>
      seqStep (setup_mount sys fs chroot_dir mc)
        (fun fs1 => mountsLoop sys fs1 chroot_dir mcs)

/-- Mirrors `Jail::setup_filesystem` (src/jail.rs lines 125-139): build the
skeleton, apply every mount, then `chroot` and reset the working directory
to `/`. -/
def setup_filesystem (sys : Sys) (fs : FsSt) (cfg : JailConfig)
    (chroot_dir : String) : StepRes :=
  seqStep (create_jail_directories sys fs chroot_dir) (fun fs1 =>
  seqStep (mountsLoop sys fs1 chroot_dir cfg.mounts) (fun fs2 =>
  seqStep (sysStep sys fs2 (Event.chrootE chroot_dir)) (fun fs3 =>
  sysStep sys fs3 (Event.chdirE "/"))))

/-- Mirrors `Jail::setup_user_permissions` (src/jail.rs lines 194-204):
`setgid` if a gid is configured, then `setuid` if a uid is configured. -/
def setup_user_permissions (sys : Sys) (fs : FsSt) (cfg : JailConfig) :
    StepRes :=
  seqStep (match cfg.gid with
           | some g => sysStep sys fs (Event.setgidE g)
           | none => (fs, [], none))
    (fun fs1 =>
      match cfg.uid with
      | some u => sysStep sys fs1 (Event.setuidE u)
      | none => (fs1, [], none))

/-- Mirrors `Jail::setup_resource_limits` (src/jail.rs lines 206-220): each
configured limit is applied with the same value as soft and hard limit. -/
def setup_resource_limits (sys : Sys) (fs : FsSt) (cfg : JailConfig) :
    StepRes :=
  seqStep (match cfg.rlimit_as with
           | some v => sysStep sys fs (Event.setrlimitE Rlim.asLim v v)
           | none => (fs, [], none))
    (fun fs1 =>
  seqStep (match cfg.rlimit_cpu with
           | some v => sysStep sys fs1 (Event.setrlimitE Rlim.cpuLim v v)
           | none => (fs1, [], none))
    (fun fs2 =>
      match cfg.rlimit_nofile with
      | some v => sysStep sys fs2 (Event.setrlimitE Rlim.nofileLim v v)
      | none => (fs2, [], none)))

/-- `CString::new` fails exactly when the string has an interior NUL byte. -/
def hasNul (s : String) : Bool :=
  s.data.any (fun c => c = Char.ofNat 0)

/-- The fixed environment vector built by `Jail::exec_target_program`
(src/jail.rs lines 233-237). -/
def jailEnv : List String :=
  ["PATH=/bin:/usr/bin:/sbin:/usr/sbin", "HOME=/", "USER=jail"]

/-- Mirrors `Jail::exec_target_program` (src/jail.rs lines 222-241): convert
the program and arguments to C strings, build the fixed environment, and
`execve`.  The `ambient` parameter is the invoking process's environment; the
source never reads it (the environment passed to `execve` is the explicit
`env` vector), which the model makes visible by taking and ignoring it. -/
def exec_target_program (sys : Sys) (fs : FsSt) (cfg : JailConfig)
    (ambient : List (String × String)) : StepRes :=
  if hasNul cfg.exec_bin then (fs, [], some (Err.nulE cfg.exec_bin))
  else
    match cfg.exec_args.find? hasNul with
    | some a => (fs, [], some (Err.nulE a))
    | none =>
        sysStep sys fs (Event.execveE cfg.exec_bin cfg.exec_args jailEnv)

/-- Mirrors `Jail::setup_child_environment` (src/jail.rs lines 74-100): the
child pipeline — identity mapping (iff a user namespace was requested),
hostname (iff configured), filesystem (iff a chroot dir is configured),
privilege drop, resource limits, exec. -/
def setup_child_environment (sys : Sys) (fs : FsSt) (cfg : JailConfig)
    (ambient : List (String × String)) : StepRes :=
  seqStep (if cfg.clone_newuser then setup_uid_gid_mapping sys fs
           else (fs, [], none))
    (fun fs1 =>
  seqStep (match cfg.hostname with
           | some h => sysStep sys fs1 (Event.sethostnameE h)
           | none => (fs1, [], none))
    (fun fs2 =>
  seqStep (match cfg.chroot_dir with
           | some d => setup_filesystem sys fs2 cfg d
           | none => (fs2, [], none))
    (fun fs3 =>
  seqStep (setup_user_permissions sys fs3 cfg) (fun fs4 =>
  seqStep (setup_resource_limits sys fs4 cfg) (fun fs5 =>
  exec_target_program sys fs5 cfg ambient)))))

/-- Who performs an event: the parent (supervisor) or the forked child. -/
inductive Role
  | parent | child
deriving DecidableEq, Repr

/-- Mirrors `Jail::wait_for_child` (src/jail.rs lines 243-256): translate the
wait status into the message the parent prints. -/
def wait_for_child (status : WaitSt) (childPid : Nat) : Report :=
  match status with
  | WaitSt.exitedW code => Report.exitReport childPid code
  | WaitSt.signaledW sig => Report.sigReport childPid sig
  | WaitSt.otherW => Report.otherReport

/-- Result of `Jail::run` as seen by the parent process. -/
inductive RunRes
  | errR (e : Err)
  | okR (r : Report)
deriving DecidableEq, Repr

/-- Mirrors `Jail::run` (src/jail.rs lines 26-46): create namespaces (in the
calling process, before any fork), then fork; the child runs the pipeline and
on a pipeline error prints and exits with status 1 (a successful `execve`
replaces the image, so the exec'd program's status is `sys.extStatus`); the
parent waits for the child and reports.  The trace linearises the two
processes as: parent events up to the fork, then the child's events, then the
parent's wait. -/
def run (sys : Sys) (cfg : JailConfig) (ambient : List (String × String)) :
    List (Role × Event) × RunRes :=
  let ns := create_namespaces sys cfg
  let nsTagged := ns.1.map (fun e => (Role.parent, e))
  match ns.2 with
  | some e => (nsTagged, RunRes.errR e)
  | none =>
      if sys.ok Event.forkE = false then
        (nsTagged ++ [(Role.parent, Event.forkE)],
         RunRes.errR (Err.sysE Event.forkE))
      else
        let c := setup_child_environment sys initFs cfg ambient
        let status : WaitSt :=
          match c.2.2 with
          | some _ => WaitSt.exitedW 1
          | none => sys.extStatus
        let waitEvt := Event.waitpidE sys.childPid
        let tr := nsTagged ++ [(Role.parent, Event.forkE)] ++
          c.2.1.map (fun e => (Role.child, e)) ++ [(Role.parent, waitEvt)]
        if sys.ok waitEvt = false then (tr, RunRes.errR (Err.sysE waitEvt))
        else (tr, RunRes.okR (wait_for_child status sys.childPid))

/-! Event classifiers (constructor tests used to state trace properties). -/

/-- True iff the event is an `unshare` call. -/
def isUnshareB : Event → Bool
  | Event.unshareE _ => true
  | _ => false

/-- True iff the event is a pseudo-file write. -/
def isWriteB : Event → Bool
  | Event.writeE _ _ => true
  | _ => false

/-- True iff the event is a `sethostname` call. -/
def isHostB : Event → Bool
  | Event.sethostnameE _ => true
  | _ => false

/-- True iff the event is a directory creation. -/
def isMkdirB : Event → Bool
  | Event.mkdirE _ => true
  | _ => false

/-- True iff the event is a regular-file creation. -/
def isFileCreateB : Event → Bool
  | Event.fileCreateE _ => true
  | _ => false

/-- True iff the event is a `mount` call. -/
def isMountB : Event → Bool
  | Event.mountE _ _ _ _ _ => true
  | _ => false

/-- True iff the event is a `chroot` call. -/
def isChrootB : Event → Bool
  | Event.chrootE _ => true
  | _ => false

/-- True iff the event is a working-directory change. -/
def isChdirB : Event → Bool
  | Event.chdirE _ => true
  | _ => false

/-- True iff the event is a `setgid` call. -/
def isSetgidB : Event → Bool
  | Event.setgidE _ => true
  | _ => false

/-- True iff the event is a `setuid` call. -/
def isSetuidB : Event → Bool
  | Event.setuidE _ => true
  | _ => false

/-- True iff the event is a `setrlimit` call. -/
def isSetrlimitB : Event → Bool
  | Event.setrlimitE _ _ _ => true
  | _ => false

/-- True iff the event is an `execve` call. -/
def isExecveB : Event → Bool
  | Event.execveE _ _ _ => true
  | _ => false

/-- True iff the event belongs to the filesystem-confinement stage. -/
def isFsEvtB (e : Event) : Bool :=
  isMkdirB e || isFileCreateB e || isMountB e || isChrootB e || isChdirB e

/-- The oracle lets every call except possibly `execve` succeed. -/
def nonExecOk (sys : Sys) : Prop :=
  ∀ e, isExecveB e = false → sys.ok e = true

/-! Derived descriptions of the traces the child stages produce on their
success paths (proved below to match the operational definitions). -/

/-- The UID-map write of `setup_uid_gid_mapping`. -/
def uidMapWrite (sys : Sys) : Event :=
  Event.writeE ("/proc/" ++ toString sys.pid ++ "/uid_map")
    ("0 " ++ toString sys.uid ++ " 1")

/-- The setgroups-deny write of `setup_uid_gid_mapping`. -/
def setgroupsWrite (sys : Sys) : Event :=
  Event.writeE ("/proc/" ++ toString sys.pid ++ "/setgroups") "deny"

/-- The GID-map write of `setup_uid_gid_mapping`. -/
def gidMapWrite (sys : Sys) : Event :=
  Event.writeE ("/proc/" ++ toString sys.pid ++ "/gid_map")
    ("0 " ++ toString sys.gid ++ " 1")

/-- The three identity-mapping writes, in source order. -/
def mappingWrites (sys : Sys) : List Event :=
  [uidMapWrite sys, setgroupsWrite sys, gidMapWrite sys]

/-- Identity-mapping section of the child trace. -/
def mapTr (sys : Sys) (cfg : JailConfig) : List Event :=
  if cfg.clone_newuser then mappingWrites sys else []

/-- Hostname section of the child trace. -/
def hostTr (cfg : JailConfig) : List Event :=
  match cfg.hostname with
  | some h => [Event.sethostnameE h]
  | none => []

/-- Privilege-drop section of the child trace. -/
def permTr (cfg : JailConfig) : List Event :=
  (match cfg.gid with
   | some g => [Event.setgidE g]
   | none => []) ++
  (match cfg.uid with
   | some u => [Event.setuidE u]
   | none => [])

/-- Resource-limit section of the child trace. -/
def limTr (cfg : JailConfig) : List Event :=
  (match cfg.rlimit_as with
   | some v => [Event.setrlimitE Rlim.asLim v v]
   | none => []) ++
  (match cfg.rlimit_cpu with
   | some v => [Event.setrlimitE Rlim.cpuLim v v]
   | none => []) ++
  (match cfg.rlimit_nofile with
   | some v => [Event.setrlimitE Rlim.nofileLim v v]
   | none => [])

/-- Exec section of the child trace (empty when `CString::new` fails first). -/
def execTr (cfg : JailConfig) : List Event :=
  if hasNul cfg.exec_bin then []
  else
    match cfg.exec_args.find? hasNul with
    | some _ => []
    | none => [Event.execveE cfg.exec_bin cfg.exec_args jailEnv]

/-- The error, if any, with which the exec stage fails. -/
def execErrOf (sys : Sys) (cfg : JailConfig) : Option Err :=
  if hasNul cfg.exec_bin then some (Err.nulE cfg.exec_bin)
  else
    match cfg.exec_args.find? hasNul with
    | some a => some (Err.nulE a)
    | none =>
        if sys.ok (Event.execveE cfg.exec_bin cfg.exec_args jailEnv) then none
        else some (Err.sysE (Event.execveE cfg.exec_bin cfg.exec_args jailEnv))

/-- The mount event `setup_mount` performs for one `MountConfig`. -/
def mountEvtOf (chroot_dir : String) (mc : MountConfig) : Event :=
  Event.mountE mc.src (mountTarget chroot_dir mc.dst) mc.fstype mc.is_bind (!mc.rw)

/-- Lexical path resolution: split on `/` and process `.` and `..`
components, yielding the list of components of the resolved absolute path. -/
def resolvePath (p : String) : List String :=
  (pathComponents p).foldl
    (fun acc c =>
      if c = "" || c = "." then acc
      else if c = ".." then acc.dropLast
      else acc ++ [c]) []

/-- `target` resolves to a location inside `root` (the resolved root is an
initial segment of the resolved target). -/
def insideRootB (root target : String) : Bool :=
  (resolvePath target).take (resolvePath root).length == resolvePath root

/-- One step of replaying a trace's effect on the limit for resource `r`. -/
def rlimStep (r : Rlim) (acc : Option (Nat × Nat)) (e : Event) :
    Option (Nat × Nat) :=
  match e with
  | Event.setrlimitE r2 s h2 => if r2 = r then some (s, h2) else acc
  | _ => acc

/-- The last address-space/CPU/file-descriptor limit a trace establishes for
resource `r`, as the pair (soft, hard). -/
def finalRlimit (r : Rlim) (tr : List Event) : Option (Nat × Nat) :=
  tr.foldl (rlimStep r) none

/-- One step of replaying a trace's effect on the hostname. -/
def hostStep (acc : String) (e : Event) : String :=
  match e with
  | Event.sethostnameE s => s
  | _ => acc

/-- The hostname after a trace runs, starting from hostname `h0`. -/
def finalHostname (h0 : String) (tr : List Event) : String :=
  tr.foldl hostStep h0

/-! Basic laws of the sequencing combinator. -/

/-- Sequencing after a successful step appends the traces. -/
@[simp] theorem seqStep_ok (fs' : FsSt) (tr : List Event) (k : FsSt → StepRes) :
    seqStep (fs', tr, none) k = ((k fs').1, tr ++ (k fs').2.1, (k fs').2.2) :=
  rfl

/-- Sequencing after a failed step short-circuits. -/
@[simp] theorem seqStep_err (fs' : FsSt) (tr : List Event) (e : Err)
    (k : FsSt → StepRes) : seqStep (fs', tr, some e) k = (fs', tr, some e) :=
  rfl

/-- All events of a sequenced step satisfy `p` when both parts do. -/
theorem seqStep_all (p : Event → Bool) (a : StepRes) (k : FsSt → StepRes)
    (ha : a.2.1.all p = true) (hk : ∀ fs, ((k fs).2.1.all p) = true) :
    (seqStep a k).2.1.all p = true := by
  obtain ⟨fs, tr, err⟩ := a
  cases err with
  | none => simp [seqStep, List.all_append, ha, hk fs]
  | some e => simpa [seqStep] using ha

/-- Weakening of `List.all` along a pointwise implication. -/
theorem allImp {p q : Event → Bool} (h : ∀ e, p e = true → q e = true) :
    ∀ {tr : List Event}, tr.all p = true → tr.all q = true := by
  intro tr htr
  rw [List.all_eq_true] at htr ⊢
  exact fun x hx => h x (htr x hx)

/-- A trace none of whose events satisfies `p` filters to the empty list. -/
theorem filterNilOfAll {p q : Event → Bool} (h : ∀ e, p e = true → q e = false)
    {tr : List Event} (htr : tr.all p = true) : tr.filter q = [] := by
  rw [List.filter_eq_nil_iff]
  rw [List.all_eq_true] at htr
  intro a ha
  simp [h a (htr a ha)]

/-- A trace all of whose events satisfy `p` filters by `p` to itself. -/
theorem filterSelfOfAll {p : Event → Bool} {tr : List Event}
    (htr : tr.all p = true) : tr.filter p = tr := by
  rw [List.filter_eq_self]
  rw [List.all_eq_true] at htr
  exact htr

/-! Unconditional bounds on the events each stage can produce. -/

/-- The identity-mapping stage only ever performs pseudo-file writes. -/
theorem setup_uid_gid_mapping_all (sys : Sys) (fs : FsSt) :
    (setup_uid_gid_mapping sys fs).2.1.all isWriteB = true := by
  apply seqStep_all
  · simp [sysStep, isWriteB]
  · intro fs1
    apply seqStep_all
    · simp [sysStep, isWriteB]
    · intro fs2
      simp [sysStep, isWriteB]

/-- `create_dir_all` performs exactly the directory-creation attempt. -/
theorem create_dir_all_events (sys : Sys) (fs : FsSt) (p : String) :
    (create_dir_all sys fs p).2.1 = [Event.mkdirE p] := by
  unfold create_dir_all
  split <;> rfl

/-- `file_create` performs exactly the file-creation attempt. -/
theorem file_create_events (sys : Sys) (fs : FsSt) (p : String) :
    (file_create sys fs p).2.1 = [Event.fileCreateE p] := by
  unfold file_create
  split <;> rfl

/-- The skeleton loop only ever creates directories. -/
theorem skeletonLoop_all (sys : Sys) (chroot_dir : String) :
    ∀ (ds : List String) (fs : FsSt),
      (skeletonLoop sys fs chroot_dir ds).2.1.all isMkdirB = true := by
  intro ds
  induction ds with
  | nil => intro fs; rfl
  | cons d ds ih =>
      intro fs
      apply seqStep_all
      · split
        · rfl
        · simp [create_dir_all_events, isMkdirB]
      · intro fs1
        exact ih fs1

/-- `create_jail_directories` only ever creates directories. -/
theorem create_jail_directories_all (sys : Sys) (fs : FsSt)
    (chroot_dir : String) :
    (create_jail_directories sys fs chroot_dir).2.1.all isMkdirB = true := by
  apply seqStep_all
  · split
    · rfl
    · simp [create_dir_all_events, isMkdirB]
  · intro fs1
    exact skeletonLoop_all sys chroot_dir jailDirs fs1

/-- `setup_mount` only creates directories/files and mounts. -/
theorem setup_mount_all (sys : Sys) (fs : FsSt) (chroot_dir : String)
    (mc : MountConfig) :
    (setup_mount sys fs chroot_dir mc).2.1.all
      (fun e => isMkdirB e || isFileCreateB e || isMountB e) = true := by
  apply seqStep_all
  · split
    · simp [create_dir_all_events, isMkdirB]
    · rfl
  · intro fs1
    apply seqStep_all
    · split
      · simp [file_create_events, isFileCreateB]
      · split
        · rfl
        · simp [create_dir_all_events, isMkdirB]
    · intro fs2
      simp [sysStep, isMountB]

/-- The mount loop only creates directories/files and mounts. -/
theorem mountsLoop_all (sys : Sys) (chroot_dir : String) :
    ∀ (mcs : List MountConfig) (fs : FsSt),
      (mountsLoop sys fs chroot_dir mcs).2.1.all
        (fun e => isMkdirB e || isFileCreateB e || isMountB e) = true := by
  intro mcs
  induction mcs with
  | nil => intro fs; rfl
  | cons mc mcs ih =>
      intro fs
      apply seqStep_all
      · exact setup_mount_all sys fs chroot_dir mc
      · intro fs1
        exact ih fs1

/-- The filesystem stage only performs filesystem events. -/
theorem setup_filesystem_all (sys : Sys) (fs : FsSt) (cfg : JailConfig)
    (chroot_dir : String) :
    (setup_filesystem sys fs cfg chroot_dir).2.1.all isFsEvtB = true := by
  apply seqStep_all
  · exact allImp (fun e he => by cases e <;> simp_all [isFsEvtB, isMkdirB])
      (create_jail_directories_all sys fs chroot_dir)
  · intro fs1
    apply seqStep_all
    · exact allImp (fun e he => by
        cases e <;>
          simp_all [isFsEvtB, isMkdirB, isFileCreateB, isMountB])
        (mountsLoop_all sys chroot_dir cfg.mounts fs1)
    · intro fs2
      apply seqStep_all
      · simp [sysStep, isFsEvtB, isChrootB]
      · intro fs3
        simp [sysStep, isFsEvtB, isChdirB]

/-- The privilege-drop stage only performs `setgid`/`setuid`. -/
theorem setup_user_permissions_all (sys : Sys) (fs : FsSt) (cfg : JailConfig) :
    (setup_user_permissions sys fs cfg).2.1.all
      (fun e => isSetgidB e || isSetuidB e) = true := by
  apply seqStep_all
  · split <;> simp [sysStep, isSetgidB]
  · intro fs1
    split <;> simp [sysStep, isSetuidB]

/-- The resource-limit stage only performs `setrlimit`. -/
theorem setup_resource_limits_all (sys : Sys) (fs : FsSt) (cfg : JailConfig) :
    (setup_resource_limits sys fs cfg).2.1.all isSetrlimitB = true := by
  apply seqStep_all
  · split <;> simp [sysStep, isSetrlimitB]
  · intro fs1
    apply seqStep_all
    · split <;> simp [sysStep, isSetrlimitB]
    · intro fs2
      split <;> simp [sysStep, isSetrlimitB]

/-- The exec stage only performs `execve`. -/
theorem exec_target_program_all (sys : Sys) (fs : FsSt) (cfg : JailConfig)
    (amb : List (String × String)) :
    (exec_target_program sys fs cfg amb).2.1.all isExecveB = true := by
  unfold exec_target_program
  split
  · rfl
  · split
    · rfl
    · simp [sysStep, isExecveB]

/-! Success-path characterizations of the stages. -/

/-- `create_dir_all` on a succeeding call. -/
theorem create_dir_all_ok {sys : Sys} {p : String} (fs : FsSt)
    (h : sys.ok (Event.mkdirE p) = true) :
    create_dir_all sys fs p =
      ({ fs with created := fs.created ++ [p] }, [Event.mkdirE p], none) := by
  simp [create_dir_all, h]

/-- `file_create` on a succeeding call. -/
theorem file_create_ok {sys : Sys} {p : String} (fs : FsSt)
    (h : sys.ok (Event.fileCreateE p) = true) :
    file_create sys fs p =
      ({ created := fs.created ++ [p], createdFiles := fs.createdFiles ++ [p] },
       [Event.fileCreateE p], none) := by
  simp [file_create, h]

/-- When every call succeeds, the identity-mapping stage performs exactly the
three mapping writes, in order, and succeeds. -/
theorem setup_uid_gid_mapping_char (sys : Sys) (fs : FsSt) (h : nonExecOk sys) :
    setup_uid_gid_mapping sys fs = (fs, mappingWrites sys, none) := by
  have h1 : sys.ok (uidMapWrite sys) = true := h _ rfl
  have h2 : sys.ok (setgroupsWrite sys) = true := h _ rfl
  have h3 : sys.ok (gidMapWrite sys) = true := h _ rfl
  simp only [uidMapWrite, setgroupsWrite, gidMapWrite] at h1 h2 h3
  simp [setup_uid_gid_mapping, sysStep, seqStep, mappingWrites, uidMapWrite,
    setgroupsWrite, gidMapWrite, h1, h2, h3]

/-- When every call succeeds, the privilege-drop stage performs exactly
`permTr` and succeeds. -/
theorem setup_user_permissions_char (sys : Sys) (fs : FsSt) (cfg : JailConfig)
    (h : nonExecOk sys) :
    setup_user_permissions sys fs cfg = (fs, permTr cfg, none) := by
  have hx : ∀ e, isExecveB e = false → sys.ok e = true := h
  cases hg : cfg.gid <;> cases hu : cfg.uid <;>
    simp [setup_user_permissions, permTr, sysStep, seqStep, hg, hu, hx,
      isExecveB]

/-- When every call succeeds, the resource-limit stage performs exactly
`limTr` and succeeds. -/
theorem setup_resource_limits_char (sys : Sys) (fs : FsSt) (cfg : JailConfig)
    (h : nonExecOk sys) :
    setup_resource_limits sys fs cfg = (fs, limTr cfg, none) := by
  have hx : ∀ e, isExecveB e = false → sys.ok e = true := h
  cases ha : cfg.rlimit_as <;> cases hc : cfg.rlimit_cpu <;>
    cases hn : cfg.rlimit_nofile <;>
      simp [setup_resource_limits, limTr, sysStep, seqStep, ha, hc, hn, hx,
        isExecveB]

/-- The exec stage always equals its derived description. -/
theorem exec_target_program_char (sys : Sys) (fs : FsSt) (cfg : JailConfig)
    (amb : List (String × String)) :
    exec_target_program sys fs cfg amb = (fs, execTr cfg, execErrOf sys cfg) := by
  cases hb : hasNul cfg.exec_bin
  · cases hf : cfg.exec_args.find? hasNul
    · cases hok : sys.ok (Event.execveE cfg.exec_bin cfg.exec_args jailEnv) <;>
        simp [exec_target_program, execTr, execErrOf, sysStep, hb, hf, hok]
    · simp [exec_target_program, execTr, execErrOf, hb, hf]
  · simp [exec_target_program, execTr, execErrOf, hb]

/-- When every call succeeds, the skeleton loop succeeds. -/
theorem skeletonLoop_char (sys : Sys) (chroot_dir : String) (h : nonExecOk sys) :
    ∀ (ds : List String) (fs : FsSt), ∃ fs2 tr,
      skeletonLoop sys fs chroot_dir ds = (fs2, tr, none) := by
  intro ds
  induction ds with
  | nil => intro fs; exact ⟨fs, [], rfl⟩
  | cons d ds ih =>
      intro fs
      obtain ⟨fsx, trx, hx⟩ : ∃ fsx trx,
          (if pathExists sys fs (chroot_dir ++ "/" ++ d) then
            (fs, ([] : List Event), (none : Option Err))
           else create_dir_all sys fs (chroot_dir ++ "/" ++ d)) =
            (fsx, trx, none) := by
        split
        · exact ⟨fs, [], rfl⟩
        · exact ⟨_, _, create_dir_all_ok fs (h _ rfl)⟩
      obtain ⟨fs2, tr2, h2⟩ := ih fsx
      exact ⟨fs2, trx ++ tr2, by simp [skeletonLoop, hx, h2]⟩

/-- When every call succeeds, `create_jail_directories` succeeds. -/
theorem create_jail_directories_char (sys : Sys) (fs : FsSt)
    (chroot_dir : String) (h : nonExecOk sys) :
    ∃ fs2 tr, create_jail_directories sys fs chroot_dir = (fs2, tr, none) := by
  obtain ⟨fsx, trx, hx⟩ : ∃ fsx trx,
      (if pathExists sys fs chroot_dir then
        (fs, ([] : List Event), (none : Option Err))
       else create_dir_all sys fs chroot_dir) = (fsx, trx, none) := by
    split
    · exact ⟨fs, [], rfl⟩
    · exact ⟨_, _, create_dir_all_ok fs (h _ rfl)⟩
  obtain ⟨fs2, tr2, h2⟩ := skeletonLoop_char sys chroot_dir h jailDirs fsx
  exact ⟨fs2, trx ++ tr2, by simp [create_jail_directories, hx, h2]⟩

/-- When every call succeeds, `setup_mount` performs some directory/file
preparation followed by exactly the mount of the entry, and succeeds. -/
theorem setup_mount_char (sys : Sys) (fs : FsSt) (chroot_dir : String)
    (mc : MountConfig) (h : nonExecOk sys) :
    ∃ fs2 pre, setup_mount sys fs chroot_dir mc =
      (fs2, pre ++ [mountEvtOf chroot_dir mc], none) ∧
      pre.all (fun e => isMkdirB e || isFileCreateB e) = true := by
  obtain ⟨fs1, t1, h1, h1all⟩ : ∃ fs1 t1,
      (match parentPath (mountTarget chroot_dir mc.dst) with
       | some par => create_dir_all sys fs par
       | none => (fs, ([] : List Event), (none : Option Err))) =
        (fs1, t1, none) ∧ t1.all (fun e => isMkdirB e || isFileCreateB e) = true := by
    split
    · exact ⟨_, _, create_dir_all_ok fs (h _ rfl), by simp [isMkdirB]⟩
    · exact ⟨fs, [], rfl, rfl⟩
  obtain ⟨fs2, t2, h2, h2all⟩ : ∃ fs2 t2,
      (if pathIsFile sys fs1 mc.src then
        file_create sys fs1 (mountTarget chroot_dir mc.dst)
       else if pathExists sys fs1 (mountTarget chroot_dir mc.dst) then
        (fs1, ([] : List Event), (none : Option Err))
       else create_dir_all sys fs1 (mountTarget chroot_dir mc.dst)) =
        (fs2, t2, none) ∧ t2.all (fun e => isMkdirB e || isFileCreateB e) = true := by
    split
    · exact ⟨_, _, file_create_ok fs1 (h _ rfl), by simp [isFileCreateB]⟩
    · split
      · exact ⟨fs1, [], rfl, rfl⟩
      · exact ⟨_, _, create_dir_all_ok fs1 (h _ rfl), by simp [isMkdirB]⟩
  have hm : sys.ok (Event.mountE mc.src (mountTarget chroot_dir mc.dst)
      mc.fstype mc.is_bind (!mc.rw)) = true := h _ rfl
  refine ⟨fs2, t1 ++ t2, ?_, ?_⟩
  · simp [setup_mount, h1, h2, sysStep, hm, mountEvtOf, List.append_assoc]
  · rw [List.all_append]
    simp [h1all, h2all]

/-- When every call succeeds, the mount loop succeeds and its mount events
are exactly the configured mounts, in order. -/
theorem mountsLoop_char (sys : Sys) (chroot_dir : String) (h : nonExecOk sys) :
    ∀ (mcs : List MountConfig) (fs : FsSt), ∃ fs2 tr,
      mountsLoop sys fs chroot_dir mcs = (fs2, tr, none) ∧
      tr.filter isMountB = mcs.map (mountEvtOf chroot_dir) := by
  intro mcs
  induction mcs with
  | nil => intro fs; exact ⟨fs, [], rfl, rfl⟩
  | cons mc mcs ih =>
      intro fs
      obtain ⟨fs1, pre, hm, hpre⟩ := setup_mount_char sys fs chroot_dir mc h
      obtain ⟨fs2, tr2, hl, hf⟩ := ih fs1
      refine ⟨fs2, (pre ++ [mountEvtOf chroot_dir mc]) ++ tr2, ?_, ?_⟩
      · simp [mountsLoop, hm, hl]
      · have hnil : pre.filter isMountB = [] :=
          filterNilOfAll
            (fun e he => by
              cases e <;> simp_all [isMkdirB, isFileCreateB, isMountB]) hpre
        simp [List.filter_append, hnil, isMountB, mountEvtOf, hf]

/-- When every call succeeds, `setup_filesystem` performs its preparation and
mounts, then the root switch, then immediately the working-directory reset —
and every configured mount is among the events before the root switch. -/
theorem setup_filesystem_char (sys : Sys) (fs : FsSt) (cfg : JailConfig)
    (chroot_dir : String) (h : nonExecOk sys) :
    ∃ fs2 pre, setup_filesystem sys fs cfg chroot_dir =
      (fs2, pre ++ [Event.chrootE chroot_dir, Event.chdirE "/"], none) ∧
      pre.all (fun e => isMkdirB e || isFileCreateB e || isMountB e) = true ∧
      pre.filter isMountB = cfg.mounts.map (mountEvtOf chroot_dir) := by
  obtain ⟨fsA, trA, hA⟩ := create_jail_directories_char sys fs chroot_dir h
  have hAall : trA.all isMkdirB = true := by
    have hTmp := create_jail_directories_all sys fs chroot_dir
    rw [hA] at hTmp
    exact hTmp
  obtain ⟨fsB, trB, hB, hBf⟩ := mountsLoop_char sys chroot_dir h cfg.mounts fsA
  have hBall : trB.all (fun e => isMkdirB e || isFileCreateB e || isMountB e)
      = true := by
    have hTmp := mountsLoop_all sys chroot_dir cfg.mounts fsA
    rw [hB] at hTmp
    exact hTmp
  have hcr : sys.ok (Event.chrootE chroot_dir) = true := h _ rfl
  have hcd : sys.ok (Event.chdirE "/") = true := h _ rfl
  refine ⟨fsB, trA ++ trB, ?_, ?_, ?_⟩
  · simp [setup_filesystem, hA, hB, sysStep, hcr, hcd, List.append_assoc]
  · rw [List.all_append]
    have hAw : trA.all (fun e => isMkdirB e || isFileCreateB e || isMountB e)
        = true :=
      allImp (fun e he => by cases e <;> simp_all [isMkdirB]) hAall
    simp [hAw, hBall]
  · have hAnil : trA.filter isMountB = [] :=
      filterNilOfAll (fun e he => by cases e <;> simp_all [isMkdirB, isMountB])
        hAall
    simp [List.filter_append, hAnil, hBf]

/-- Master characterization of the child pipeline when every call (except
possibly the final `execve`) succeeds: the trace is the mapping writes, then
the hostname call, then the filesystem events (ending in the root switch
immediately followed by the working-directory reset), then privilege drop,
then resource limits, then the exec attempt. -/
theorem setup_child_environment_char (sys : Sys) (fs : FsSt) (cfg : JailConfig)
    (amb : List (String × String)) (h : nonExecOk sys) :
    ∃ fsTr fsF,
      setup_child_environment sys fs cfg amb =
        (fsF,
         mapTr sys cfg ++ hostTr cfg ++ fsTr ++ permTr cfg ++ limTr cfg ++
           execTr cfg,
         execErrOf sys cfg) ∧
      fsTr.all isFsEvtB = true ∧
      (cfg.chroot_dir = none → fsTr = []) ∧
      (∀ d, cfg.chroot_dir = some d →
        ∃ pre, fsTr = pre ++ [Event.chrootE d, Event.chdirE "/"] ∧
          pre.all (fun e => isMkdirB e || isFileCreateB e || isMountB e) = true ∧
          pre.filter isMountB = cfg.mounts.map (mountEvtOf d)) := by
  have hx : ∀ e, isExecveB e = false → sys.ok e = true := h
  have hA : (if cfg.clone_newuser then setup_uid_gid_mapping sys fs
             else (fs, ([] : List Event), (none : Option Err))) =
      (fs, mapTr sys cfg, none) := by
    cases hcu : cfg.clone_newuser <;>
      simp [mapTr, hcu, setup_uid_gid_mapping_char sys fs h]
  have hH : ∀ fs1 : FsSt,
      (match cfg.hostname with
       | some hn => sysStep sys fs1 (Event.sethostnameE hn)
       | none => (fs1, ([] : List Event), (none : Option Err))) =
      (fs1, hostTr cfg, none) := by
    intro fs1
    cases hh : cfg.hostname <;> simp [hostTr, hh, sysStep, hx, isExecveB]
  cases hcd : cfg.chroot_dir with
  | none =>
      refine ⟨[], fs, ?_, rfl, fun _ => rfl, fun d hd => by simp [hcd] at hd⟩
      simp [setup_child_environment, hA, hH, hcd,
        setup_user_permissions_char sys fs cfg h,
        setup_resource_limits_char sys fs cfg h,
        exec_target_program_char sys fs cfg amb]
  | some d =>
      obtain ⟨fsB, pre, hFs, hPreAll, hPreF⟩ :=
        setup_filesystem_char sys fs cfg d h
      refine ⟨pre ++ [Event.chrootE d, Event.chdirE "/"], fsB, ?_, ?_, ?_, ?_⟩
      · simp [setup_child_environment, hA, hH, hcd, hFs,
          setup_user_permissions_char sys fsB cfg h,
          setup_resource_limits_char sys fsB cfg h,
          exec_target_program_char sys fsB cfg amb, List.append_assoc]
      · rw [List.all_append]
        have hPre2 : pre.all isFsEvtB = true :=
          allImp (fun e he => by
            cases e <;> simp_all [isFsEvtB, isMkdirB, isFileCreateB, isMountB])
            hPreAll
        simp [hPre2, isFsEvtB, isChrootB, isChdirB]
      · intro hnone
        exact Option.noConfusion hnone
      · intro d2 hd2
        injection hd2 with hdd
        subst hdd
        exact ⟨pre, rfl, hPreAll, hPreF⟩

/-! Facts about the derived section traces and the fold observers. -/

/-- The mapping section consists of pseudo-file writes only. -/
theorem mapTr_all_writes (sys : Sys) (cfg : JailConfig) :
    (mapTr sys cfg).all isWriteB = true := by
  cases hcu : cfg.clone_newuser <;>
    simp [mapTr, hcu, mappingWrites, uidMapWrite, setgroupsWrite, gidMapWrite,
      isWriteB]

/-- The hostname section consists of `sethostname` calls only. -/
theorem hostTr_all (cfg : JailConfig) : (hostTr cfg).all isHostB = true := by
  cases hh : cfg.hostname <;> simp [hostTr, hh, isHostB]

/-- The privilege-drop section consists of `setgid`/`setuid` calls only. -/
theorem permTr_all (cfg : JailConfig) :
    (permTr cfg).all (fun e => isSetgidB e || isSetuidB e) = true := by
  cases hg : cfg.gid <;> cases hu : cfg.uid <;>
    simp [permTr, hg, hu, isSetgidB, isSetuidB]

/-- The resource-limit section consists of `setrlimit` calls only. -/
theorem limTr_all (cfg : JailConfig) :
    (limTr cfg).all isSetrlimitB = true := by
  cases ha : cfg.rlimit_as <;> cases hc : cfg.rlimit_cpu <;>
    cases hn : cfg.rlimit_nofile <;>
      simp [limTr, ha, hc, hn, isSetrlimitB]

/-- The exec section consists of `execve` calls only. -/
theorem execTr_all (cfg : JailConfig) : (execTr cfg).all isExecveB = true := by
  unfold execTr
  split
  · rfl
  · split
    · rfl
    · simp [isExecveB]

/-- The mapping stage succeeds exactly when all three writes succeed. -/
theorem setup_uid_gid_mapping_err_iff (sys : Sys) (fs : FsSt) :
    (setup_uid_gid_mapping sys fs).2.2 = none ↔
      (sys.ok (uidMapWrite sys) = true ∧ sys.ok (setgroupsWrite sys) = true ∧
       sys.ok (gidMapWrite sys) = true) := by
  cases h1 : sys.ok (uidMapWrite sys) <;>
    cases h2 : sys.ok (setgroupsWrite sys) <;>
      cases h3 : sys.ok (gidMapWrite sys) <;>
        (simp only [uidMapWrite, setgroupsWrite, gidMapWrite] at h1 h2 h3 <;>
         simp [setup_uid_gid_mapping, sysStep, seqStep, uidMapWrite,
           setgroupsWrite, gidMapWrite, h1, h2, h3])

/-- When the mapping stage fails, the whole child pipeline stops with exactly
the mapping stage's trace and error. -/
theorem setup_child_environment_map_err (sys : Sys) (fs : FsSt)
    (cfg : JailConfig) (amb : List (String × String))
    (hcu : cfg.clone_newuser = true)
    (he : (setup_uid_gid_mapping sys fs).2.2 ≠ none) :
    (setup_child_environment sys fs cfg amb).2.1 =
      (setup_uid_gid_mapping sys fs).2.1 ∧
    (setup_child_environment sys fs cfg amb).2.2 =
      (setup_uid_gid_mapping sys fs).2.2 := by
  rcases hm : setup_uid_gid_mapping sys fs with ⟨mfs, mtr, merr⟩
  cases merr with
  | none => rw [hm] at he; simp at he
  | some er =>
      constructor <;> simp [setup_child_environment, hcu, hm, seqStep]

/-- Replaying a trace with no `setrlimit` event leaves the limit unchanged. -/
theorem foldl_rlimStep_keep (r : Rlim) :
    ∀ (tr : List Event) (acc : Option (Nat × Nat)),
      tr.all (fun e => !isSetrlimitB e) = true →
      tr.foldl (rlimStep r) acc = acc := by
  intro tr
  induction tr with
  | nil => intro acc _; rfl
  | cons e tr ih =>
      intro acc hall
      simp only [List.all_cons, Bool.and_eq_true] at hall
      obtain ⟨h1, h2⟩ := hall
      have hstep : rlimStep r acc e = acc := by
        cases e
        case setrlimitE => simp [isSetrlimitB] at h1
        all_goals rfl
      rw [List.foldl_cons, hstep]
      exact ih acc h2

/-- Replaying a trace with no `sethostname` event leaves the hostname
unchanged. -/
theorem foldl_hostStep_keep :
    ∀ (tr : List Event) (acc : String),
      tr.all (fun e => !isHostB e) = true → tr.foldl hostStep acc = acc := by
  intro tr
  induction tr with
  | nil => intro acc _; rfl
  | cons e tr ih =>
      intro acc hall
      simp only [List.all_cons, Bool.and_eq_true] at hall
      obtain ⟨h1, h2⟩ := hall
      have hstep : hostStep acc e = acc := by
        cases e
        case sethostnameE => simp [isHostB] at h1
        all_goals rfl
      rw [List.foldl_cons, hstep]
      exact ih acc h2

/-- Replaying the resource-limit section: the address-space limit. -/
theorem foldl_limTr_as (cfg : JailConfig) (n : Nat)
    (ha : cfg.rlimit_as = some n) :
    (limTr cfg).foldl (rlimStep Rlim.asLim) none = some (n, n) := by
  cases hc : cfg.rlimit_cpu <;> cases hn : cfg.rlimit_nofile <;>
    simp [limTr, ha, hc, hn, rlimStep]

/-- Replaying the resource-limit section: the CPU-time limit. -/
theorem foldl_limTr_cpu (cfg : JailConfig) (n : Nat)
    (hc : cfg.rlimit_cpu = some n) :
    (limTr cfg).foldl (rlimStep Rlim.cpuLim) none = some (n, n) := by
  cases ha : cfg.rlimit_as <;> cases hn : cfg.rlimit_nofile <;>
    simp [limTr, ha, hc, hn, rlimStep]

/-- Replaying the resource-limit section: the open-file-descriptor limit. -/
theorem foldl_limTr_nofile (cfg : JailConfig) (n : Nat)
    (hn : cfg.rlimit_nofile = some n) :
    (limTr cfg).foldl (rlimStep Rlim.nofileLim) none = some (n, n) := by
  cases ha : cfg.rlimit_as <;> cases hc : cfg.rlimit_cpu <;>
    simp [limTr, ha, hc, hn, rlimStep]

/-- When every call the run makes succeeds (the final `execve` may go either
way), `run` produces the linearised trace — parent namespace creation, fork,
the child pipeline, the parent's wait — and reports the child's status. -/
theorem run_char (sys : Sys) (cfg : JailConfig) (amb : List (String × String))
    (h : nonExecOk sys) :
    (run sys cfg amb).1 =
      [(Role.parent, Event.unshareE (cloneFlags cfg)),
       (Role.parent, Event.forkE)] ++
      (setup_child_environment sys initFs cfg amb).2.1.map
        (fun e => (Role.child, e)) ++
      [(Role.parent, Event.waitpidE sys.childPid)] ∧
    (run sys cfg amb).2 = RunRes.okR (wait_for_child
      (match (setup_child_environment sys initFs cfg amb).2.2 with
       | some _ => WaitSt.exitedW 1
       | none => sys.extStatus) sys.childPid) := by
  have hu : sys.ok (Event.unshareE (cloneFlags cfg)) = true := h _ rfl
  have hf : sys.ok Event.forkE = true := h _ rfl
  have hw : sys.ok (Event.waitpidE sys.childPid) = true := h _ rfl
  constructor <;> simp [run, create_namespaces, hu, hf, hw]

/-- An oracle on which every OS call succeeds, nothing exists in the initial
filesystem, and the invoking identity is uid/gid 1000. -/
def sysAllOk : Sys where
  ok := fun _ => true
  exists0 := fun _ => false
  isFile0 := fun _ => false
  uid := 1000
  gid := 1000
  pid := 7
  childPid := 8
  extStatus := WaitSt.exitedW 0

/-- On `sysAllOk` every non-exec call succeeds. -/
theorem sysAllOk_nonExecOk : nonExecOk sysAllOk := fun _ _ => rfl

/-- An oracle on which every call succeeds except `execve` (the target
binary cannot be executed, e.g. it does not exist). -/
def sysExecFails : Sys where
  ok := fun e => !isExecveB e
  exists0 := fun _ => false
  isFile0 := fun _ => false
  uid := 1000
  gid := 1000
  pid := 7
  childPid := 8
  extStatus := WaitSt.otherW

/-- On `sysExecFails` every non-exec call succeeds. -/
theorem sysExecFails_nonExecOk : nonExecOk sysExecFails := by
  intro e he
  simp [sysExecFails, he]

/-- A configuration requesting only a PID namespace and running `/bin/sh`. -/
def cfgPidOnly : JailConfig where
  name := "pidonly"
  hostname := none
  chroot_dir := none
  exec_bin := "/bin/sh"
  exec_args := ["/bin/sh"]
  clone_newpid := true
  clone_newnet := false
  clone_newns := false
  clone_newuts := false
  clone_newipc := false
  clone_newuser := false
  rlimit_as := none
  rlimit_cpu := none
  rlimit_nofile := none
  mounts := []
  uid := none
  gid := none
  time_limit := none

/-- A configuration with an empty executable path and a nonexistent
confinement root — the shape §8 of the spec says validation must refuse. -/
def cfgNoValidation : JailConfig where
  name := "noval"
  hostname := none
  chroot_dir := some "/nope"
  exec_bin := ""
  exec_args := []
  clone_newpid := false
  clone_newnet := false
  clone_newns := false
  clone_newuts := false
  clone_newipc := false
  clone_newuser := false
  rlimit_as := none
  rlimit_cpu := none
  rlimit_nofile := none
  mounts := []
  uid := none
  gid := none
  time_limit := none

/-- A configuration exercising every feature of the pipeline. -/
def cfgFull : JailConfig where
  name := "full"
  hostname := some "jailhost"
  chroot_dir := some "/jail"
  exec_bin := "/bin/sh"
  exec_args := ["/bin/sh"]
  clone_newpid := true
  clone_newnet := true
  clone_newns := true
  clone_newuts := true
  clone_newipc := true
  clone_newuser := true
  rlimit_as := some 1048576
  rlimit_cpu := some 10
  rlimit_nofile := some 64
  mounts := [⟨"/bin", "/bin", none, true, false⟩]
  uid := some 1000
  gid := some 1000
  time_limit := some 30

/-- A mount entry whose destination walks out of the confinement root. -/
def mcEscape : MountConfig where
  src := "/etc"
  dst := "/../etc"
  fstype := none
  is_bind := true
  rw := false

/-- When no user namespace is requested the child pipeline performs no
pseudo-file write at all. -/
theorem setup_child_environment_no_writes (sys : Sys) (fs : FsSt)
    (cfg : JailConfig) (amb : List (String × String))
    (hcu : cfg.clone_newuser = false) :
    (setup_child_environment sys fs cfg amb).2.1.all (fun e => !isWriteB e)
      = true := by
  unfold setup_child_environment
  rw [hcu]
  simp only [Bool.false_eq_true, if_false]
  apply seqStep_all
  · rfl
  · intro fs1
    apply seqStep_all
    · cases hh : cfg.hostname <;> simp [sysStep, isWriteB]
    · intro fs2
      apply seqStep_all
      · cases hcd : cfg.chroot_dir with
        | none => rfl
        | some d =>
            exact allImp (fun e he => by
              cases e <;> simp_all [isFsEvtB, isMkdirB, isFileCreateB,
                isMountB, isChrootB, isChdirB, isWriteB])
              (setup_filesystem_all sys fs2 cfg d)
      · intro fs3
        apply seqStep_all
        · exact allImp (fun e he => by
            cases e <;> simp_all [isSetgidB, isSetuidB, isWriteB])
            (setup_user_permissions_all sys fs3 cfg)
        · intro fs4
          apply seqStep_all
          · exact allImp (fun e he => by
              cases e <;> simp_all [isSetrlimitB, isWriteB])
              (setup_resource_limits_all sys fs4 cfg)
          · intro fs5
            exact allImp (fun e he => by
              cases e <;> simp_all [isExecveB, isWriteB])
              (exec_target_program_all sys fs5 cfg amb)

/-- The limit for resource `r` after the child pipeline is decided by the
resource-limit section alone. -/
theorem finalRlimit_child (sys : Sys) (fs : FsSt) (cfg : JailConfig)
    (amb : List (String × String)) (r : Rlim) (h : nonExecOk sys) :
    finalRlimit r (setup_child_environment sys fs cfg amb).2.1 =
      (limTr cfg).foldl (rlimStep r) none := by
  obtain ⟨fsTr, fsF, hc, hall, _, _⟩ :=
    setup_child_environment_char sys fs cfg amb h
  rw [hc]
  unfold finalRlimit
  rw [show mapTr sys cfg ++ hostTr cfg ++ fsTr ++ permTr cfg ++ limTr cfg ++
      execTr cfg =
      ((mapTr sys cfg ++ hostTr cfg ++ fsTr ++ permTr cfg) ++ limTr cfg) ++
      execTr cfg by simp [List.append_assoc]]
  rw [List.foldl_append, List.foldl_append]
  have hX : (mapTr sys cfg ++ hostTr cfg ++ fsTr ++ permTr cfg).all
      (fun e => !isSetrlimitB e) = true := by
    simp only [List.all_append, Bool.and_eq_true]
    refine ⟨⟨⟨?_, ?_⟩, ?_⟩, ?_⟩
    · exact allImp (fun e he => by
        cases e <;> first | rfl | exact Bool.noConfusion he)
        (mapTr_all_writes sys cfg)
    · exact allImp (fun e he => by
        cases e <;> first | rfl | exact Bool.noConfusion he) (hostTr_all cfg)
    · exact allImp (fun e he => by
        cases e <;> first | rfl | exact Bool.noConfusion he) hall
    · exact allImp (fun e he => by
        cases e <;> first | rfl | exact Bool.noConfusion he) (permTr_all cfg)
  rw [foldl_rlimStep_keep r _ none hX]
  exact foldl_rlimStep_keep r _ _
    (allImp (fun e he => by
      cases e <;> first | rfl | exact Bool.noConfusion he) (execTr_all cfg))

/-! Claim theorems. -/

/-- C7: the configured wall-clock `time_limit` has no effect whatsoever on a
jail run — the trace and the result of `run` are identical for any two
values of the field.  No code in src/jail.rs ever reads `time_limit`; the
parent's wait is a plain blocking `waitpid`, so no timeout outcome can be
produced and the child is never forcibly terminated. -/
theorem run_independent_of_time_limit (sys : Sys) (cfg : JailConfig)
    (amb : List (String × String)) (t1 t2 : Option Nat) :
    run sys { cfg with time_limit := t1 } amb =
      run sys { cfg with time_limit := t2 } amb := rfl

/-- Whether an event, if it is an exec, passes exactly the fixed jail
environment. -/
def envIsJailEnvB (e : Event) : Bool :=
  match e with
  | Event.execveE _ _ env => env == jailEnv
  | _ => true

/-- C9: the environment handed to `execve` is the fixed minimal vector
(`PATH=/bin:/usr/bin:/sbin:/usr/sbin`, `HOME=/`, `USER=jail`), and the
launcher — and the whole run — is independent of the invoking process's
environment: two runs under arbitrarily different invoker environments are
identical, and no invoker variable reaches the exec call. -/
theorem exec_env_fixed_independent_of_invoker (sys : Sys) (fs : FsSt)
    (cfg : JailConfig) (amb1 amb2 : List (String × String)) :
    exec_target_program sys fs cfg amb1 = exec_target_program sys fs cfg amb2 ∧
    run sys cfg amb1 = run sys cfg amb2 ∧
    (exec_target_program sys fs cfg amb1).2.1.all envIsJailEnvB = true := by
  refine ⟨rfl, rfl, ?_⟩
  rw [exec_target_program_char]
  unfold execTr
  split
  · rfl
  · split
    · rfl
    · simp [envIsJailEnvB]

/-- C1 (amended): `run` performs namespace creation in the parent, before
the fork; the forked child then performs identity mapping, hostname setup,
filesystem confinement, privilege drop, resource limits and exec, in that
fixed order, and the parent waits. -/
theorem run_unshares_in_parent_then_forks (sys : Sys) (cfg : JailConfig)
    (amb : List (String × String)) (h : nonExecOk sys) :
    ∃ childTr, (run sys cfg amb).1 =
      [(Role.parent, Event.unshareE (cloneFlags cfg)),
       (Role.parent, Event.forkE)] ++
      childTr.map (fun e => (Role.child, e)) ++
      [(Role.parent, Event.waitpidE sys.childPid)] ∧
      ∃ fsTr, childTr =
        mapTr sys cfg ++ hostTr cfg ++ fsTr ++ permTr cfg ++ limTr cfg ++
          execTr cfg ∧
        fsTr.all isFsEvtB = true := by
  obtain ⟨fsTr, fsF, hc, hall, _, _⟩ :=
    setup_child_environment_char sys initFs cfg amb h
  obtain ⟨htr, _⟩ := run_char sys cfg amb h
  exact ⟨(setup_child_environment sys initFs cfg amb).2.1, htr, fsTr,
    by rw [hc], hall⟩

/-- Witness for C1's amended theorem at a concrete full configuration. -/
theorem run_unshares_in_parent_then_forks_witness :
    ∃ childTr, (run sysAllOk cfgFull []).1 =
      [(Role.parent, Event.unshareE (cloneFlags cfgFull)),
       (Role.parent, Event.forkE)] ++
      childTr.map (fun e => (Role.child, e)) ++
      [(Role.parent, Event.waitpidE sysAllOk.childPid)] ∧
      ∃ fsTr, childTr =
        mapTr sysAllOk cfgFull ++ hostTr cfgFull ++ fsTr ++ permTr cfgFull ++
          limTr cfgFull ++ execTr cfgFull ∧
        fsTr.all isFsEvtB = true :=
  run_unshares_in_parent_then_forks sysAllOk cfgFull [] sysAllOk_nonExecOk

/-- C1 counterexample: on a concrete run requesting a PID namespace, the
`unshare` call is performed by the parent and precedes the fork — the only
unshare in the trace carries the parent role, refuting the claim that the
child performs namespace creation after the fork. -/
theorem unshare_by_parent_counterexample :
    (run sysAllOk cfgPidOnly []).1.take 2 =
      [(Role.parent, Event.unshareE [NsKind.pidNs]),
       (Role.parent, Event.forkE)] ∧
    ((run sysAllOk cfgPidOnly []).1.filter
      (fun pr => isUnshareB pr.2)).map Prod.fst = [Role.parent] := by
  constructor <;> rfl

/-- C6: the core performs no pre-flight validation at all.  Every run —
including one whose executable path is empty and whose confinement root does
not exist — immediately attempts namespace creation, then forks; with a
nonexistent confinement root the child does not refuse but silently creates
the root directory. -/
theorem no_validation_before_fork :
    cfgNoValidation.exec_bin = "" ∧
    sysAllOk.exists0 "/nope" = false ∧
    (∀ (sys : Sys) (cfg : JailConfig) (amb : List (String × String)),
      (run sys cfg amb).1.head? =
        some (Role.parent, Event.unshareE (cloneFlags cfg))) ∧
    (run sysAllOk cfgNoValidation []).1.take 3 =
      [(Role.parent, Event.unshareE []), (Role.parent, Event.forkE),
       (Role.child, Event.mkdirE "/nope")] := by
  refine ⟨rfl, rfl, ?_, by rfl⟩
  intro sys cfg amb
  cases hok : sys.ok (Event.unshareE (cloneFlags cfg)) <;>
    cases hf : sys.ok Event.forkE <;>
      cases hw : sys.ok (Event.waitpidE sys.childPid) <;>
        simp [run, create_namespaces, hok, hf, hw]

/-- C2: whenever a user namespace is requested the child performs exactly
three identity-mapping writes — the UID map `0 <outer-uid> 1`, then the
setgroups `deny`, then the GID map `0 <outer-gid> 1` — in that order, as the
first three actions of the pipeline; when no user namespace is requested no
pseudo-file write occurs at all; and if any of the three writes fails the
pipeline stops with an error before any privilege-drop, resource-limit or
exec operation. -/
theorem identity_mapping_writes_order :
    (∀ (sys : Sys) (fs : FsSt) (cfg : JailConfig)
        (amb : List (String × String)), nonExecOk sys →
      cfg.clone_newuser = true →
        (setup_child_environment sys fs cfg amb).2.1.filter isWriteB =
          [uidMapWrite sys, setgroupsWrite sys, gidMapWrite sys] ∧
        (setup_child_environment sys fs cfg amb).2.1.take 3 =
          [uidMapWrite sys, setgroupsWrite sys, gidMapWrite sys]) ∧
    (∀ (sys : Sys) (fs : FsSt) (cfg : JailConfig)
        (amb : List (String × String)), cfg.clone_newuser = false →
        (setup_child_environment sys fs cfg amb).2.1.filter isWriteB = []) ∧
    (∀ (sys : Sys) (fs : FsSt) (cfg : JailConfig)
        (amb : List (String × String)) (w : Event), cfg.clone_newuser = true →
        w ∈ mappingWrites sys → sys.ok w = false →
        (setup_child_environment sys fs cfg amb).2.2 ≠ none ∧
        (setup_child_environment sys fs cfg amb).2.1.all
          (fun e => !(isSetgidB e || isSetuidB e || isSetrlimitB e ||
            isExecveB e)) = true) := by
  refine ⟨?_, ?_, ?_⟩
  · intro sys fs cfg amb h hcu
    obtain ⟨fsTr, fsF, hc, hall, _, _⟩ :=
      setup_child_environment_char sys fs cfg amb h
    have hmap : mapTr sys cfg = mappingWrites sys := by simp [mapTr, hcu]
    have hmw : (mappingWrites sys).all isWriteB = true := by
      have hTmp := mapTr_all_writes sys cfg
      rw [hmap] at hTmp
      exact hTmp
    have htr : (setup_child_environment sys fs cfg amb).2.1 =
        mappingWrites sys ++ (hostTr cfg ++ fsTr ++ permTr cfg ++ limTr cfg ++
          execTr cfg) := by
      rw [hc]
      simp [hmap, List.append_assoc]
    constructor
    · have h1 : (hostTr cfg).filter isWriteB = [] :=
        filterNilOfAll (fun e he => by
          cases e <;> first | rfl | exact Bool.noConfusion he) (hostTr_all cfg)
      have h2 : fsTr.filter isWriteB = [] :=
        filterNilOfAll (fun e he => by
          cases e <;> first | rfl | exact Bool.noConfusion he) hall
      have h3 : (permTr cfg).filter isWriteB = [] :=
        filterNilOfAll (fun e he => by
          cases e <;> first | rfl | exact Bool.noConfusion he) (permTr_all cfg)
      have h4 : (limTr cfg).filter isWriteB = [] :=
        filterNilOfAll (fun e he => by
          cases e <;> first | rfl | exact Bool.noConfusion he) (limTr_all cfg)
      have h5 : (execTr cfg).filter isWriteB = [] :=
        filterNilOfAll (fun e he => by
          cases e <;> first | rfl | exact Bool.noConfusion he) (execTr_all cfg)
      rw [htr, List.filter_append, filterSelfOfAll hmw]
      simp only [List.filter_append, h1, h2, h3, h4, h5, List.append_nil,
        List.nil_append]
      rfl
    · rw [htr, mappingWrites]
      exact List.take_left' rfl
  · intro sys fs cfg amb hcu
    exact filterNilOfAll (fun e he => by simpa using he)
      (setup_child_environment_no_writes sys fs cfg amb hcu)
  · intro sys fs cfg amb w hcu hwmem hwfail
    have hne : (setup_uid_gid_mapping sys fs).2.2 ≠ none := by
      intro h0
      rw [setup_uid_gid_mapping_err_iff] at h0
      obtain ⟨h1, h2, h3⟩ := h0
      simp only [mappingWrites, List.mem_cons, List.not_mem_nil,
        or_false] at hwmem
      rcases hwmem with hw | hw | hw <;> subst hw <;> simp_all
    obtain ⟨htr, herr⟩ :=
      setup_child_environment_map_err sys fs cfg amb hcu hne
    refine ⟨by rw [herr]; exact hne, ?_⟩
    rw [htr]
    exact allImp (fun e he => by
      cases e <;> first | rfl | exact Bool.noConfusion he)
      (setup_uid_gid_mapping_all sys fs)

/-- Witness for C2 at a concrete full configuration and oracle. -/
theorem identity_mapping_writes_order_witness :
    (setup_child_environment sysAllOk initFs cfgFull []).2.1.filter isWriteB =
      [uidMapWrite sysAllOk, setgroupsWrite sysAllOk, gidMapWrite sysAllOk] ∧
    (setup_child_environment sysAllOk initFs cfgFull []).2.1.take 3 =
      [uidMapWrite sysAllOk, setgroupsWrite sysAllOk, gidMapWrite sysAllOk] :=
  identity_mapping_writes_order.1 sysAllOk initFs cfgFull []
    sysAllOk_nonExecOk rfl

/-- C3: every configured mount is applied before the root switch — in any
outcome the filesystem stage's trace splits into a chroot-free prefix and a
mount-free suffix, and on the success path the trace ends with the `chroot`
immediately followed by the working-directory reset to `/`, with the mount
events before the switch matching the configured list in order. -/
theorem mounts_before_root_switch :
    (∀ (sys : Sys) (fs : FsSt) (cfg : JailConfig) (d : String),
      ∃ pre post, (setup_filesystem sys fs cfg d).2.1 = pre ++ post ∧
        pre.all (fun e => !isChrootB e) = true ∧
        post.all (fun e => !isMountB e) = true) ∧
    (∀ (sys : Sys) (fs : FsSt) (cfg : JailConfig) (d : String),
      nonExecOk sys →
      ∃ fs2 pre, setup_filesystem sys fs cfg d =
        (fs2, pre ++ [Event.chrootE d, Event.chdirE "/"], none) ∧
        pre.all (fun e => !isChrootB e) = true ∧
        pre.filter isMountB = cfg.mounts.map (mountEvtOf d)) := by
  constructor
  · intro sys fs cfg d
    rcases hA : create_jail_directories sys fs d with ⟨fsa, tra, erra⟩
    have hAall : tra.all isMkdirB = true := by
      have hTmp := create_jail_directories_all sys fs d
      rw [hA] at hTmp
      exact hTmp
    have hAnc : tra.all (fun e => !isChrootB e) = true :=
      allImp (fun e he => by
        cases e <;> first | rfl | exact Bool.noConfusion he) hAall
    cases erra with
    | some e =>
        refine ⟨tra, [], ?_, hAnc, rfl⟩
        simp [setup_filesystem, hA, seqStep]
    | none =>
        rcases hB : mountsLoop sys fsa d cfg.mounts with ⟨fsb, trb, errb⟩
        have hBall : trb.all
            (fun e => isMkdirB e || isFileCreateB e || isMountB e) = true := by
          have hTmp := mountsLoop_all sys d cfg.mounts fsa
          rw [hB] at hTmp
          exact hTmp
        have hBnc : trb.all (fun e => !isChrootB e) = true :=
          allImp (fun e he => by
            cases e <;> first | rfl | exact Bool.noConfusion he) hBall
        have hABnc : (tra ++ trb).all (fun e => !isChrootB e) = true := by
          rw [List.all_append]
          simp [hAnc, hBnc]
        cases errb with
        | some e =>
            refine ⟨tra ++ trb, [], ?_, hABnc, rfl⟩
            simp [setup_filesystem, hA, hB, seqStep, List.append_assoc]
        | none =>
            cases hcr : sys.ok (Event.chrootE d) with
            | false =>
                refine ⟨tra ++ trb, [Event.chrootE d], ?_, hABnc, rfl⟩
                simp [setup_filesystem, hA, hB, seqStep, sysStep, hcr,
                  List.append_assoc]
            | true =>
                refine ⟨tra ++ trb, [Event.chrootE d, Event.chdirE "/"], ?_,
                  hABnc, rfl⟩
                simp [setup_filesystem, hA, hB, seqStep, sysStep, hcr,
                  List.append_assoc]
  · intro sys fs cfg d h
    obtain ⟨fs2, pre, hchar, hall, hfil⟩ := setup_filesystem_char sys fs cfg d h
    exact ⟨fs2, pre, hchar,
      allImp (fun e he => by
        cases e <;> first | rfl | exact Bool.noConfusion he) hall, hfil⟩

/-- Witness for C3 at a concrete full configuration and oracle. -/
theorem mounts_before_root_switch_witness :
    ∃ fs2 pre, setup_filesystem sysAllOk initFs cfgFull "/jail" =
      (fs2, pre ++ [Event.chrootE "/jail", Event.chdirE "/"], none) ∧
      pre.all (fun e => !isChrootB e) = true ∧
      pre.filter isMountB = cfgFull.mounts.map (mountEvtOf "/jail") :=
  mounts_before_root_switch.2 sysAllOk initFs cfgFull "/jail"
    sysAllOk_nonExecOk

/-- C5: during privilege drop the group identity is set before the user
identity whenever both are configured; the privilege-drop section precedes
the resource-limit section, which precedes exec; and each configured
resource ceiling is applied with soft and hard limit both equal to the
configured value, so the child's effective limit pair for a configured
ceiling `N` is `(N, N)`. -/
theorem privilege_drop_order_and_limits :
    (∀ (sys : Sys) (fs : FsSt) (cfg : JailConfig) (g u : Nat),
      nonExecOk sys → cfg.gid = some g → cfg.uid = some u →
        (setup_user_permissions sys fs cfg).2.1 =
          [Event.setgidE g, Event.setuidE u]) ∧
    (∀ (sys : Sys) (fs : FsSt) (cfg : JailConfig)
        (amb : List (String × String)), nonExecOk sys →
      ∃ pre, (setup_child_environment sys fs cfg amb).2.1 =
        pre ++ permTr cfg ++ limTr cfg ++ execTr cfg ∧
        pre.all (fun e => !(isSetgidB e || isSetuidB e || isSetrlimitB e))
          = true) ∧
    (∀ (sys : Sys) (fs : FsSt) (cfg : JailConfig)
        (amb : List (String × String)) (n : Nat), nonExecOk sys →
      cfg.rlimit_as = some n →
        finalRlimit Rlim.asLim
          (setup_child_environment sys fs cfg amb).2.1 = some (n, n)) ∧
    (∀ (sys : Sys) (fs : FsSt) (cfg : JailConfig)
        (amb : List (String × String)) (n : Nat), nonExecOk sys →
      cfg.rlimit_cpu = some n →
        finalRlimit Rlim.cpuLim
          (setup_child_environment sys fs cfg amb).2.1 = some (n, n)) ∧
    (∀ (sys : Sys) (fs : FsSt) (cfg : JailConfig)
        (amb : List (String × String)) (n : Nat), nonExecOk sys →
      cfg.rlimit_nofile = some n →
        finalRlimit Rlim.nofileLim
          (setup_child_environment sys fs cfg amb).2.1 = some (n, n)) := by
  refine ⟨?_, ?_, ?_, ?_, ?_⟩
  · intro sys fs cfg g u h hg hu
    rw [setup_user_permissions_char sys fs cfg h]
    simp [permTr, hg, hu]
  · intro sys fs cfg amb h
    obtain ⟨fsTr, fsF, hc, hall, _, _⟩ :=
      setup_child_environment_char sys fs cfg amb h
    refine ⟨mapTr sys cfg ++ hostTr cfg ++ fsTr, by rw [hc], ?_⟩
    · simp only [List.all_append, Bool.and_eq_true]
      refine ⟨⟨?_, ?_⟩, ?_⟩
      · exact allImp (fun e he => by
          cases e <;> first | rfl | exact Bool.noConfusion he)
          (mapTr_all_writes sys cfg)
      · exact allImp (fun e he => by
          cases e <;> first | rfl | exact Bool.noConfusion he) (hostTr_all cfg)
      · exact allImp (fun e he => by
          cases e <;> first | rfl | exact Bool.noConfusion he) hall
  · intro sys fs cfg amb n h hn
    rw [finalRlimit_child sys fs cfg amb Rlim.asLim h]
    exact foldl_limTr_as cfg n hn
  · intro sys fs cfg amb n h hn
    rw [finalRlimit_child sys fs cfg amb Rlim.cpuLim h]
    exact foldl_limTr_cpu cfg n hn
  · intro sys fs cfg amb n h hn
    rw [finalRlimit_child sys fs cfg amb Rlim.nofileLim h]
    exact foldl_limTr_nofile cfg n hn

/-- Witness for C5 at a concrete full configuration and oracle. -/
theorem privilege_drop_order_and_limits_witness :
    (setup_user_permissions sysAllOk initFs cfgFull).2.1 =
      [Event.setgidE 1000, Event.setuidE 1000] ∧
    finalRlimit Rlim.asLim
      (setup_child_environment sysAllOk initFs cfgFull []).2.1 =
      some (1048576, 1048576) :=
  ⟨privilege_drop_order_and_limits.1 sysAllOk initFs cfgFull 1000 1000
      sysAllOk_nonExecOk rfl rfl,
   privilege_drop_order_and_limits.2.2.1 sysAllOk initFs cfgFull [] 1048576
      sysAllOk_nonExecOk rfl⟩

/-- C10: the child sets the hostname exactly when one is configured.  When
none is configured no `sethostname` call occurs and the hostname is left
unchanged; when one is configured the call happens right after the
identity-mapping writes and before every filesystem, privilege-drop,
resource-limit and exec operation, and no other `sethostname` occurs. -/
theorem hostname_set_iff_configured :
    (∀ (sys : Sys) (fs : FsSt) (cfg : JailConfig)
        (amb : List (String × String)) (h0 : String), nonExecOk sys →
      cfg.hostname = none →
        (setup_child_environment sys fs cfg amb).2.1.all
          (fun e => !isHostB e) = true ∧
        finalHostname h0 (setup_child_environment sys fs cfg amb).2.1 = h0) ∧
    (∀ (sys : Sys) (fs : FsSt) (cfg : JailConfig)
        (amb : List (String × String)) (hn : String), nonExecOk sys →
      cfg.hostname = some hn →
        ∃ tail2, (setup_child_environment sys fs cfg amb).2.1 =
          mapTr sys cfg ++ Event.sethostnameE hn :: tail2 ∧
          (mapTr sys cfg).all isWriteB = true ∧
          tail2.all (fun e => !isHostB e) = true ∧
          ∃ fsTr, tail2 = fsTr ++ permTr cfg ++ limTr cfg ++ execTr cfg ∧
            fsTr.all isFsEvtB = true) := by
  constructor
  · intro sys fs cfg amb h0 h hh
    obtain ⟨fsTr, fsF, hc, hall, _, _⟩ :=
      setup_child_environment_char sys fs cfg amb h
    have hhost : hostTr cfg = [] := by simp [hostTr, hh]
    have hnh : (setup_child_environment sys fs cfg amb).2.1.all
        (fun e => !isHostB e) = true := by
      rw [hc]
      simp only [hhost, List.append_nil, List.nil_append, List.all_append,
        Bool.and_eq_true]
      refine ⟨⟨⟨⟨?_, ?_⟩, ?_⟩, ?_⟩, ?_⟩ <;>
        first
          | exact allImp (fun e he => by
              cases e <;> first | rfl | exact Bool.noConfusion he)
              (mapTr_all_writes sys cfg)
          | exact allImp (fun e he => by
              cases e <;> first | rfl | exact Bool.noConfusion he) hall
          | exact allImp (fun e he => by
              cases e <;> first | rfl | exact Bool.noConfusion he)
              (permTr_all cfg)
          | exact allImp (fun e he => by
              cases e <;> first | rfl | exact Bool.noConfusion he)
              (limTr_all cfg)
          | exact allImp (fun e he => by
              cases e <;> first | rfl | exact Bool.noConfusion he)
              (execTr_all cfg)
    exact ⟨hnh, foldl_hostStep_keep _ h0 hnh⟩
  · intro sys fs cfg amb hn h hh
    obtain ⟨fsTr, fsF, hc, hall, _, _⟩ :=
      setup_child_environment_char sys fs cfg amb h
    have hhost : hostTr cfg = [Event.sethostnameE hn] := by simp [hostTr, hh]
    refine ⟨fsTr ++ permTr cfg ++ limTr cfg ++ execTr cfg, ?_,
      mapTr_all_writes sys cfg, ?_, fsTr, by simp [List.append_assoc], hall⟩
    · rw [hc, hhost]
      simp [List.append_assoc]
    · simp only [List.all_append, Bool.and_eq_true]
      refine ⟨⟨⟨?_, ?_⟩, ?_⟩, ?_⟩
      · exact allImp (fun e he => by
          cases e <;> first | rfl | exact Bool.noConfusion he) hall
      · exact allImp (fun e he => by
          cases e <;> first | rfl | exact Bool.noConfusion he) (permTr_all cfg)
      · exact allImp (fun e he => by
          cases e <;> first | rfl | exact Bool.noConfusion he) (limTr_all cfg)
      · exact allImp (fun e he => by
          cases e <;> first | rfl | exact Bool.noConfusion he) (execTr_all cfg)

/-- Witness for C10 at a concrete full configuration and oracle. -/
theorem hostname_set_iff_configured_witness :
    ∃ tail2, (setup_child_environment sysAllOk initFs cfgFull []).2.1 =
      mapTr sysAllOk cfgFull ++ Event.sethostnameE "jailhost" :: tail2 ∧
      (mapTr sysAllOk cfgFull).all isWriteB = true ∧
      tail2.all (fun e => !isHostB e) = true ∧
      ∃ fsTr, tail2 = fsTr ++ permTr cfgFull ++ limTr cfgFull ++
        execTr cfgFull ∧ fsTr.all isFsEvtB = true :=
  hostname_set_iff_configured.2 sysAllOk initFs cfgFull [] "jailhost"
    sysAllOk_nonExecOk rfl

/-- C8: the program launch is the final act of the child.  When the
executable and arguments convert cleanly, the launcher performs exactly the
one `execve` attempt; on success (the image is replaced) no child event
follows it and the parent reports the exec'd program's own status; on
failure the child pipeline ends in the exec error, no child event follows
the attempt, and the child exits with status 1 — a non-zero status distinct
from a normal exit — which the parent duly reports. -/
theorem exec_no_return_on_success_and_nonzero_exit_on_failure :
    (∀ (sys : Sys) (fs : FsSt) (cfg : JailConfig)
        (amb : List (String × String)),
      hasNul cfg.exec_bin = false → cfg.exec_args.find? hasNul = none →
        exec_target_program sys fs cfg amb =
          (fs, [Event.execveE cfg.exec_bin cfg.exec_args jailEnv],
           if sys.ok (Event.execveE cfg.exec_bin cfg.exec_args jailEnv) then
             none
           else some (Err.sysE
             (Event.execveE cfg.exec_bin cfg.exec_args jailEnv)))) ∧
    (∀ (sys : Sys) (cfg : JailConfig) (amb : List (String × String)),
      nonExecOk sys → hasNul cfg.exec_bin = false →
        cfg.exec_args.find? hasNul = none →
        sys.ok (Event.execveE cfg.exec_bin cfg.exec_args jailEnv) = false →
        (setup_child_environment sys initFs cfg amb).2.2 =
          some (Err.sysE
            (Event.execveE cfg.exec_bin cfg.exec_args jailEnv)) ∧
        (∃ pre, (run sys cfg amb).1 =
          pre ++ [(Role.child,
            Event.execveE cfg.exec_bin cfg.exec_args jailEnv),
            (Role.parent, Event.waitpidE sys.childPid)]) ∧
        (run sys cfg amb).2 =
          RunRes.okR (Report.exitReport sys.childPid 1) ∧ (1 : Int) ≠ 0) ∧
    (∀ (sys : Sys) (cfg : JailConfig) (amb : List (String × String)),
      (∀ e, sys.ok e = true) → hasNul cfg.exec_bin = false →
        cfg.exec_args.find? hasNul = none →
        (setup_child_environment sys initFs cfg amb).2.2 = none ∧
        (∃ pre, (run sys cfg amb).1 =
          pre ++ [(Role.child,
            Event.execveE cfg.exec_bin cfg.exec_args jailEnv),
            (Role.parent, Event.waitpidE sys.childPid)]) ∧
        (run sys cfg amb).2 =
          RunRes.okR (wait_for_child sys.extStatus sys.childPid)) := by
  refine ⟨?_, ?_, ?_⟩
  · intro sys fs cfg amb hb hf
    rw [exec_target_program_char]
    simp [execTr, execErrOf, hb, hf]
  · intro sys cfg amb h hb hf hok
    obtain ⟨fsTr, fsF, hc, hall, _, _⟩ :=
      setup_child_environment_char sys initFs cfg amb h
    obtain ⟨htr, hres⟩ := run_char sys cfg amb h
    have hexecTr : execTr cfg =
        [Event.execveE cfg.exec_bin cfg.exec_args jailEnv] := by
      simp [execTr, hb, hf]
    have herr : (setup_child_environment sys initFs cfg amb).2.2 =
        some (Err.sysE (Event.execveE cfg.exec_bin cfg.exec_args jailEnv)) := by
      rw [hc]
      simp [execErrOf, hb, hf, hok]
    refine ⟨herr, ?_, ?_, by decide⟩
    · refine ⟨[(Role.parent, Event.unshareE (cloneFlags cfg)),
        (Role.parent, Event.forkE)] ++
        (mapTr sys cfg ++ hostTr cfg ++ fsTr ++ permTr cfg ++
          limTr cfg).map (fun e => (Role.child, e)), ?_⟩
      rw [htr, hc]
      simp [hexecTr, List.map_append, List.append_assoc]
    · rw [hres, herr]
      rfl
  · intro sys cfg amb hok hb hf
    have h : nonExecOk sys := fun e _ => hok e
    obtain ⟨fsTr, fsF, hc, hall, _, _⟩ :=
      setup_child_environment_char sys initFs cfg amb h
    obtain ⟨htr, hres⟩ := run_char sys cfg amb h
    have hexecTr : execTr cfg =
        [Event.execveE cfg.exec_bin cfg.exec_args jailEnv] := by
      simp [execTr, hb, hf]
    have herr : (setup_child_environment sys initFs cfg amb).2.2 = none := by
      rw [hc]
      simp [execErrOf, hb, hf, hok]
    refine ⟨herr, ?_, ?_⟩
    · refine ⟨[(Role.parent, Event.unshareE (cloneFlags cfg)),
        (Role.parent, Event.forkE)] ++
        (mapTr sys cfg ++ hostTr cfg ++ fsTr ++ permTr cfg ++
          limTr cfg).map (fun e => (Role.child, e)), ?_⟩
      rw [htr, hc]
      simp [hexecTr, List.map_append, List.append_assoc]
    · rw [hres, herr]

/-- Witness for C8's failing-exec branch: on an oracle where only `execve`
fails (the binary cannot be executed), the child pipeline ends in the exec
error, nothing follows the exec attempt, and the parent reports exit
status 1. -/
theorem exec_failure_nonzero_exit_witness :
    (setup_child_environment sysExecFails initFs cfgPidOnly []).2.2 =
      some (Err.sysE (Event.execveE cfgPidOnly.exec_bin cfgPidOnly.exec_args
        jailEnv)) ∧
    (∃ pre, (run sysExecFails cfgPidOnly []).1 =
      pre ++ [(Role.child, Event.execveE cfgPidOnly.exec_bin
        cfgPidOnly.exec_args jailEnv),
        (Role.parent, Event.waitpidE sysExecFails.childPid)]) ∧
    (run sysExecFails cfgPidOnly []).2 =
      RunRes.okR (Report.exitReport sysExecFails.childPid 1) ∧
    (1 : Int) ≠ 0 :=
  exec_no_return_on_success_and_nonzero_exit_on_failure.2.1 sysExecFails
    cfgPidOnly [] sysExecFails_nonExecOk (by decide) (by decide) rfl

/-- C4 refutation: the mount target is computed by plain string
concatenation, so an entry whose destination contains `..` escapes the
confinement root.  With root `/jail` and destination `/../etc` the code
mounts at `/jail/../etc`, which resolves to `/etc` — outside the root — and
the mount call with that escaped target is really performed. -/
theorem mount_target_escapes_confinement_root :
    mountTarget "/jail" mcEscape.dst = "/jail/../etc" ∧
    resolvePath (mountTarget "/jail" mcEscape.dst) = ["etc"] ∧
    resolvePath "/jail" = ["jail"] ∧
    insideRootB "/jail" (mountTarget "/jail" mcEscape.dst) = false ∧
    (setup_mount sysAllOk initFs "/jail" mcEscape).2.1.getLast? =
      some (Event.mountE "/etc" "/jail/../etc" none true true) := by
  exact ⟨rfl, by decide, by decide, by decide, by decide⟩

end Rsjail
